import Mathlib

/-!
Shallow embedding of `src/mixins/view.js` (the Marionette `ViewMixin`):
lifecycle flags and the `destroy` state machine, event-source composition
(`delegateEvents`), method-event dispatch (`triggerMethod`) with behavior and
parent cascading, the `_parentView` chain walk, and the intactness guard
(`_ensureViewIsIntact` / `getUI`).

State is modelled explicitly (a `ViewData` record), and every externally
observable step (event emission, handler invocation, DOM teardown, listener
release) is recorded in an effect trace, so that ordering and idempotence
statements are about the trace and the resulting state.  Collaborators that
live outside `src/` (Backbone primitives, underscore helpers, and the sibling
mixins `BehaviorsMixin`, `UIMixin`, `TriggersMixin`, `CommonMixin`,
`DelegateEntityEventsMixin`, plus the standalone `trigger-method` module) are
modelled from the spec where noted on the individual definitions.
-/

namespace Marionette

/-- Left-biased choice on options; used to state key-precedence results about
merged event maps. -/
def orE {α : Type} : Option α → Option α → Option α
  | some a, _ => some a
  | none, b => b

/-- First-match association-list lookup: a JS object property read (maps built
with `setKey` keep keys unique, so first match is the match). -/
def lookupA {α : Type} : List (String × α) → String → Option α
  | [], _ => none
  | p :: rest, k => if p.1 = k then some p.2 else lookupA rest k

/-- JS property assignment `obj[k] = v`: overwrite the slot if the key is
present, otherwise append the new key at the end (JS insertion order). -/
def setKey {α : Type} : List (String × α) → String → α → List (String × α)
  | [], k, v => [(k, v)]
  | p :: rest, k, v => if p.1 = k then (k, v) :: rest else p :: setKey rest k v

/-- Underscore `_.extend(dst, src)`: assign every own property of `src` into
`dst`, in iteration order. -/
def extendA {α : Type} (m src : List (String × α)) : List (String × α) :=
  src.foldl (fun acc p => setKey acc p.1 p.2) m

/-- `_.extend` skips an `undefined` source argument. -/
def extendO {α : Type} (m : List (String × α)) :
    Option (List (String × α)) → List (String × α)
  | none => m
  | some s => extendA m s

/-- Lookup through an optional map (an `undefined` map has no keys). -/
def lookupO {α : Type} (o : Option (List (String × α))) (k : String) : Option α :=
  match o with
  | none => none
  | some s => lookupA s k

theorem lookupA_not_mem {α : Type} {s : List (String × α)} {k : String}
    (h : ¬ k ∈ s.map Prod.fst) : lookupA s k = none := by
  induction s with
  | nil => rfl
  | cons p rest ih =>
    rw [List.map_cons, List.mem_cons] at h
    push_neg at h
    have h1 : ¬ p.1 = k := fun hk => h.1 hk.symm
    simp [lookupA, h1, ih h.2]

theorem lookupA_setKey {α : Type} (m : List (String × α)) (k k2 : String) (v : α) :
    lookupA (setKey m k2 v) k = if k = k2 then some v else lookupA m k := by
  induction m with
  | nil =>
    by_cases h : k = k2
    · simp [setKey, lookupA, h]
    · have h2 : ¬ k2 = k := fun hh => h hh.symm
      simp [setKey, lookupA, h, h2]
  | cons p rest ih =>
    by_cases hp : p.1 = k2
    · subst hp
      by_cases h : k = p.1
      · subst h
        simp [setKey, lookupA]
      · have h2 : ¬ p.1 = k := fun hh => h hh.symm
        simp [setKey, lookupA, h, h2]
    · by_cases h : p.1 = k
      · have hk : ¬ k = k2 := fun hh => hp (by rw [h, hh])
        simp [setKey, lookupA, hp, h, hk]
      · simp [setKey, lookupA, hp, h, ih]

theorem lookupA_extendA {α : Type} (s : List (String × α)) :
    ∀ (m : List (String × α)) (k : String), (s.map Prod.fst).Nodup →
    lookupA (extendA m s) k = orE (lookupA s k) (lookupA m k) := by
  induction s with
  | nil =>
    intro m k _
    simp [extendA, lookupA, orE]
  | cons p rest ih =>
    intro m k hs
    rw [List.map_cons, List.nodup_cons] at hs
    rw [show extendA m (p :: rest) = extendA (setKey m p.1 p.2) rest from rfl,
      ih _ k hs.2]
    by_cases h : k = p.1
    · subst h
      have hrest : lookupA rest p.1 = none := lookupA_not_mem hs.1
      simp [lookupA, lookupA_setKey, orE, hrest]
    · have hp : ¬ p.1 = k := fun hh => h hh.symm
      simp [lookupA, lookupA_setKey, orE, h, hp]

theorem lookupA_extendO {α : Type} (o : Option (List (String × α)))
    (m : List (String × α)) (k : String)
    (ho : ∀ s, o = some s → (s.map Prod.fst).Nodup) :
    lookupA (extendO m o) k = orE (lookupO o k) (lookupA m k) := by
  cases o with
  | none => simp [extendO, lookupO, orE]
  | some s => simp [extendO, lookupO, lookupA_extendA s m k (ho s rfl)]

/-- A value in a composed delegation map: a handler-method name coming from an
`events` map, or the concrete handler a `triggers` entry expands into (it
dispatches `triggerMethod` with the stored application event name). -/
inductive Handler where
  | method (name : String)
  | trig (event : String)
deriving DecidableEq, Repr

/-- A behavior attached to a view (Behavior class itself is not under `src/`):
per the spec it may contribute `events` and `triggers` maps, authored against
its own UI name table, and it is notified of every dispatched event. -/
structure Behavior where
  bid : String
  events : List (String × String) := []
  triggers : List (String × String) := []
  ui : List (String × String) := []
deriving DecidableEq, Repr

/-- The per-view state touched by `ViewMixin`.  `delegated` records the map
most recently handed to `Backbone.View.prototype.delegateEvents` (the
DOM-binding primitive).  `_childViewEvents` / `_childViewTriggers` are the
caches written by `_buildEventProxies`. -/
structure ViewData where
  cid : String
  _isDestroyed : Bool := false
  _isRendered : Bool := false
  _isAttached : Bool := false
  events : Option (List (String × String)) := none
  triggers : Option (List (String × String)) := none
  ui : List (String × String) := []
  uiCache : List (String × String) := []
  behaviors : List Behavior := []
  childViewEventPrefix : String := "childview"
  childViewEvents : Option (List (String × String)) := none
  childViewTriggers : Option (List (String × String)) := none
  _childViewEvents : Option (List (String × String)) := none
  _childViewTriggers : Option (List (String × String)) := none
  onMethods : List (String × Int) := []
  delegated : Option (List (String × Handler)) := none
deriving DecidableEq, Repr

/-- `isDestroyed` (src lines 17-19). -/
def isDestroyed (v : ViewData) : Bool := v._isDestroyed

/-- `isRendered` (src lines 23-25). -/
def isRendered (v : ViewData) : Bool := v._isRendered

/-- `isAttached` (src lines 29-31). -/
def isAttached (v : ViewData) : Bool := v._isAttached

/-- The error object thrown by `MarionetteError` (class not under `src/`;
modelled as the name/message payload `_ensureViewIsIntact` constructs). -/
structure MarionetteError where
  name : String
  message : String
deriving DecidableEq, Repr

/-- `_ensureViewIsIntact` (src lines 108-115): throw a `ViewDestroyedError`
carrying the view's `cid` when the view has been destroyed. -/
def _ensureViewIsIntact (v : ViewData) : Except MarionetteError Unit :=
  if v._isDestroyed then
    Except.error
      { name := "ViewDestroyedError",
        message := "View (cid: \"" ++ v.cid ++
          "\") has already been destroyed and cannot be used." }
  else Except.ok ()

/-- Modelled from the spec: `normalizeUIKeys` (UIMixin, not under `src/`),
the Event Descriptor Normalizer. Substitutes `@ui.<n>` placeholders in
descriptor keys using the UI name table; keys without placeholders pass
through unchanged. -/
def normalizeUIKeys {α : Type} (ui : List (String × String))
    (m : List (String × α)) : List (String × α) :=
  m.map (fun p => (ui.foldl (fun s q => s.replace ("@ui." ++ q.1) q.2) p.1, p.2))

/-- `getEvents` (src lines 68-72): normalize the explicit argument if one was
given, else the view's own `events`; an absent map stays absent (`getValue` of
a literal map is the map itself; function-valued configuration is outside this
embedding). -/
def getEvents (v : ViewData) (eventsArg : Option (List (String × String))) :
    Option (List (String × String)) :=
  match eventsArg.orElse (fun _ => v.events) with
  | none => none
  | some es => some (normalizeUIKeys v.ui es)

/-- Modelled from the spec: `_getViewTriggers` (TriggersMixin, not under
`src/`) expands each trigger spec into a concrete handler that dispatches
`triggerMethod` with the configured application event name. -/
def _getViewTriggers (triggers : List (String × String)) :
    List (String × Handler) :=
  triggers.map (fun p => (p.1, Handler.trig p.2))

/-- `getTriggers` (src lines 76-85): `undefined` when the view has no
`triggers`, else the normalized map expanded into trigger handlers. -/
def getTriggers (v : ViewData) : Option (List (String × Handler)) :=
  match v.triggers with
  | none => none
  | some ts => some (_getViewTriggers (normalizeUIKeys v.ui ts))

/-- Injection of an `events` map (selector to handler-method name) into the
composed delegation map's value type. -/
def liftEvents (m : List (String × String)) : List (String × Handler) :=
  m.map (fun p => (p.1, Handler.method p.2))

/-- Modelled from the spec: `_getBehaviorEvents` (BehaviorsMixin, not under
`src/`): merge each behavior's `events`, normalized against that behavior's
own UI table, in attachment order, last write wins. -/
def _getBehaviorEvents (v : ViewData) : List (String × Handler) :=
  v.behaviors.foldl
    (fun acc b => extendA acc (liftEvents (normalizeUIKeys b.ui b.events))) []

/-- Modelled from the spec: `_getBehaviorTriggers` (BehaviorsMixin, not under
`src/`): the behaviors' expanded trigger maps, merged in attachment order. -/
def _getBehaviorTriggers (v : ViewData) : List (String × Handler) :=
  v.behaviors.foldl
    (fun acc b => extendA acc (_getViewTriggers (normalizeUIKeys b.ui b.triggers))) []

/-- `_buildEventProxies` (src lines 182-186): cache `childViewEvents` and
`childViewTriggers` on the instance. -/
def _buildEventProxies (v : ViewData) : ViewData :=
  { v with _childViewEvents := v.childViewEvents,
           _childViewTriggers := v.childViewTriggers }

/-- `delegateEvents` (src lines 45-66): refresh behavior proxies and event
proxies, normalize the view's events (persisting them back when no explicit
argument was given), merge behavior events, view events, behavior triggers and
view triggers (in that order, later sources overriding earlier ones on a
conflicting key, exactly `_.extend({}, ...)`) and hand the combined map to
`Backbone.View.prototype.delegateEvents` (recorded in `delegated`).  The body
contains no intactness guard, so the embedding never produces an error. -/
def delegateEvents (v : ViewData) (eventsArg : Option (List (String × String))) :
    Except MarionetteError ViewData :=
  let v1 := _buildEventProxies v
  let viewEvents := getEvents v1 eventsArg
  let v2 := if eventsArg.isNone then { v1 with events := viewEvents } else v1
  let combinedEvents :=
    extendO
      (extendA
        (extendO (extendA [] (_getBehaviorEvents v2))
          (Option.map liftEvents viewEvents))
        (_getBehaviorTriggers v2))
      (getTriggers v2)
  Except.ok { v2 with delegated := some combinedEvents }

/-- One externally observable step of dispatch or teardown.  `args` is the
opaque argument payload threaded through the JS rest-parameters. -/
inductive Effect where
  | invokeOnMethod (cid event : String) (args : List Int)
  | emitEvent (cid event : String) (args : List Int)
  | behaviorNotify (cid bid event : String) (args : List Int)
  | childViewEventHandler (cid event : String) (args : List Int)
  | setDestroyedFlags (cid : String)
  | unbindUI (cid : String)
  | unbindBehaviorUI (cid : String)
  | bindUI (cid : String)
  | bindBehaviorUI (cid : String)
  | removeElement (cid : String)
  | removeChildren (cid : String)
  | destroyBehavior (cid bid : String) (args : List Int)
  | stopListening (cid : String)
  | delegateEntity (cid : String)
  | delegateBehaviorEntity (cid : String)
  | undelegateEntity (cid : String)
  | undelegateBehaviorEntity (cid : String)
deriving DecidableEq, Repr

/-- A node of the `_parent` back-reference chain: either a first-class view
(`parent instanceof View` holds) or an intermediate container (e.g. a region)
that is skipped by `_parentView`.  A view's upward chain is the list of nodes
reached by following `_parent` repeatedly. -/
inductive ParentNode where
  | view (d : ViewData)
  | container
deriving DecidableEq, Repr

/-- Modelled from the spec: the standalone `triggerMethod` dispatch primitive
(`src/trigger-method.js`, not under `src/`): derive the on-method name from
the event name, invoke it if present on the view capturing its return value
(`onMethods` maps event names to the return values of the on-methods the view
defines), and emit the event to listeners. -/
def triggerMethodBase (v : ViewData) (e : String) (args : List Int) :
    Option Int × List Effect :=
  match lookupA v.onMethods e with
  | some r => (some r, [Effect.invokeOnMethod v.cid e args, Effect.emitEvent v.cid e args])
  | none => (none, [Effect.emitEvent v.cid e args])

/-- Modelled from the spec: `_triggerEventOnBehaviors` (BehaviorsMixin, not
under `src/`): forward the event to every attached behavior, in attachment
order; behaviors never suppress delivery. -/
def _triggerEventOnBehaviors (v : ViewData) (e : String) (args : List Int) :
    List Effect :=
  v.behaviors.map (fun b => Effect.behaviorNotify v.cid b.bid e args)

/-- `_triggerEventOnParentLayout` (src lines 188-214), as a structural
recursion over the parent chain.  The `_parentView` walk (src lines 216-227)
is fused into the match (a `container` head is skipped), and the two calls to
the parent's full `triggerMethod` are unfolded into their three phases so the
recursion is structural; the lemmas `parentLayout_step` and
`parentLayout_resolve` below restate the body in terms of `triggerMethod`,
`cveStep` and `cvtStep` exactly as the source is written.  For a found parent
`p` the source: (1) calls `p.triggerMethod` with the event name prefixed by
`p`'s own `childViewEventPrefix`; (2) if `p._childViewEvents` (after
`normalizeMethods`, modelled from the spec as resolving each entry to a
function) has an entry at the unprefixed event name, applies it to `p` with
the original args; (3) if `p._childViewTriggers` has a string entry at the
unprefixed event name, re-triggers it as a new method-event on `p`. -/
def _triggerEventOnParentLayout : List ParentNode → String → List Int → List Effect
  | [], _, _ => []
  | ParentNode.container :: rest, e, args => _triggerEventOnParentLayout rest e args
  | ParentNode.view p :: rest, e, args =>
    let pn := ViewData.childViewEventPrefix p ++ ":" ++ e
    ((triggerMethodBase p pn args).2 ++ _triggerEventOnBehaviors p pn args
      ++ _triggerEventOnParentLayout rest pn args)
    ++ (match p._childViewEvents with
        | some cve =>
          match lookupA cve e with
          | some _ => [Effect.childViewEventHandler p.cid e args]
          | none => []
        | none => [])
    ++ (match p._childViewTriggers with
        | some cvt =>
          match lookupA cvt e with
          | some t =>
            (triggerMethodBase p t args).2 ++ _triggerEventOnBehaviors p t args
              ++ _triggerEventOnParentLayout rest t args
          | none => []
        | none => [])

/-- `triggerMethod` (src lines 172-179): dispatch on the view itself (keeping
that call's return value as the result), then notify the behaviors, then
forward to the parent layout. -/
def triggerMethod (v : ViewData) (chain : List ParentNode) (e : String)
    (args : List Int) : Option Int × List Effect :=
  ((triggerMethodBase v e args).1,
    (triggerMethodBase v e args).2 ++ _triggerEventOnBehaviors v e args
      ++ _triggerEventOnParentLayout chain e args)

/-- The `childViewEvents` consultation step of `_triggerEventOnParentLayout`
(src lines 200-205): the parent's cached `_childViewEvents` map is consulted
under the unprefixed event name and, on a function entry, applied with the
original args. -/
def cveStep (p : ViewData) (e : String) (args : List Int) : List Effect :=
  match p._childViewEvents with
  | some cve =>
    match lookupA cve e with
    | some _ => [Effect.childViewEventHandler p.cid e args]
    | none => []
  | none => []

/-- The `childViewTriggers` consultation step of `_triggerEventOnParentLayout`
(src lines 207-213): the parent's cached `_childViewTriggers` map is consulted
under the unprefixed event name and, on a string entry, that string is
re-triggered as a new method-event on the parent. -/
def cvtStep (p : ViewData) (rest : List ParentNode) (e : String)
    (args : List Int) : List Effect :=
  match p._childViewTriggers with
  | some cvt =>
    match lookupA cvt e with
    | some t => (triggerMethod p rest t args).2
    | none => []
  | none => []

/-- `_parentView` (src lines 216-227): walk the `_parent` chain and return the
first node that is an instance of `View`, paired with that ancestor's own
remaining upward chain; `none` when the chain ends without one. -/
def _parentView : List ParentNode → Option (ViewData × List ParentNode)
  | [] => none
  | ParentNode.view p :: rest => some (p, rest)
  | ParentNode.container :: rest => _parentView rest

theorem parentLayout_step (p : ViewData) (rest : List ParentNode) (e : String)
    (args : List Int) :
    _triggerEventOnParentLayout (ParentNode.view p :: rest) e args =
      (triggerMethod p rest ( ViewData.childViewEventPrefix p ++ ":" ++ e) args).2
        ++ cveStep p e args ++ cvtStep p rest e args := rfl

theorem parentLayout_resolve (chain : List ParentNode) (e : String)
    (args : List Int) (p : ViewData) (rest : List ParentNode)
    (h : _parentView chain = some (p, rest)) :
    _triggerEventOnParentLayout chain e args =
      (triggerMethod p rest ( ViewData.childViewEventPrefix p ++ ":" ++ e) args).2
        ++ cveStep p e args ++ cvtStep p rest e args := by
  induction chain with
  | nil => simp [_parentView] at h
  | cons hd tl ih =>
    cases hd with
    | container => exact ih h
    | view q =>
      rw [show _parentView (ParentNode.view q :: tl) = some (q, tl) from rfl] at h
      simp only [Option.some.injEq, Prod.mk.injEq] at h
      obtain ⟨h1, h2⟩ := h
      subst h1
      subst h2
      exact parentLayout_step q tl e args

/-- How the embedding names the live element a CSS selector resolves to. -/
def resolveEl (selector : String) : String := "el(" ++ selector ++ ")"

/-- Modelled from the spec: `_bindUIElements` (UIMixin, not under `src/`):
resolve the UI name table against the current DOM root and cache the element
handles. -/
def _bindUIElements (v : ViewData) : ViewData × List Effect :=
  ({ v with uiCache := v.ui.map (fun p => (p.1, resolveEl p.2)) },
    [Effect.bindUI v.cid])

/-- Modelled from the spec: `_bindBehaviorUIElements` (BehaviorsMixin, not
under `src/`): each behavior resolves and caches its own UI table (tracked
only as an effect here). -/
def _bindBehaviorUIElements (v : ViewData) : ViewData × List Effect :=
  (v, [Effect.bindBehaviorUI v.cid])

/-- `bindUIElements` (src lines 146-151): bind the view's UI elements, then
the behaviors'; returns `this`.  No intactness guard in the body. -/
def bindUIElements (v : ViewData) :
    Except MarionetteError (ViewData × List Effect) :=
  let r1 := _bindUIElements v
  let r2 := _bindBehaviorUIElements r1.1
  Except.ok (r2.1, r1.2 ++ r2.2)

/-- Modelled from the spec: `_unbindUIElements` (UIMixin, not under `src/`):
invalidate the view's UI element cache. -/
def _unbindUIElements (v : ViewData) : ViewData × List Effect :=
  ({ v with uiCache := [] }, [Effect.unbindUI v.cid])

/-- Modelled from the spec: `_unbindBehaviorUIElements` (BehaviorsMixin, not
under `src/`): each behavior unbinds its own UI cache. -/
def _unbindBehaviorUIElements (v : ViewData) : ViewData × List Effect :=
  (v, [Effect.unbindBehaviorUI v.cid])

/-- `unbindUIElements` (src lines 154-159): unbind the view's UI elements,
then the behaviors'. -/
def unbindUIElements (v : ViewData) : ViewData × List Effect :=
  let r1 := _unbindUIElements v
  let r2 := _unbindBehaviorUIElements r1.1
  (r2.1, r1.2 ++ r2.2)

/-- Modelled from the spec: `_getUI` (UIMixin, not under `src/`): return the
cached element handle for the symbolic name. -/
def _getUI (v : ViewData) (name : String) : Option String :=
  lookupA v.uiCache name

/-- `getUI` (src lines 161-164): intactness guard, then the cached lookup. -/
def getUI (v : ViewData) (name : String) :
    Except MarionetteError (Option String) :=
  match _ensureViewIsIntact v with
  | Except.error err => Except.error err
  | Except.ok _ => Except.ok (_getUI v name)

/-- `delegateEntityEvents` (src lines 88-95): bind the view's `modelEvents` /
`collectionEvents` against its model and collection, then each behavior's
(helpers live in DelegateEntityEventsMixin / BehaviorsMixin, not under
`src/`; modelled from the spec as recorded binding steps).  Returns `this`;
no intactness guard in the body. -/
def delegateEntityEvents (v : ViewData) :
    Except MarionetteError (ViewData × List Effect) :=
  Except.ok (v, [Effect.delegateEntity v.cid, Effect.delegateBehaviorEntity v.cid])

/-- `undelegateEntityEvents` (src lines 98-105): the exact unbinding mirror of
`delegateEntityEvents`; returns `this`; no intactness guard in the body. -/
def undelegateEntityEvents (v : ViewData) :
    Except MarionetteError (ViewData × List Effect) :=
  Except.ok (v, [Effect.undelegateEntity v.cid, Effect.undelegateBehaviorEntity v.cid])

/-- Modelled from the spec: `_removeElement` (base view / Backbone, not under
`src/`): remove the view's root element from the DOM. -/
def _removeElement (v : ViewData) : List Effect := [Effect.removeElement v.cid]

/-- Modelled from the spec: `_removeChildren` (not under `src/`): recursively
destroy the view's child views. -/
def _removeChildren (v : ViewData) : List Effect := [Effect.removeChildren v.cid]

/-- Modelled from the spec: `_destroyBehaviors` (BehaviorsMixin, not under
`src/`): run every attached behavior's destroy hook, in attachment order,
passing the destroy arguments along. -/
def _destroyBehaviors (v : ViewData) (args : List Int) : List Effect :=
  v.behaviors.map (fun b => Effect.destroyBehavior v.cid b.bid args)

/-- Modelled from the spec: `stopListening` (Backbone.Events, not under
`src/`): release every event subscription this view made. -/
def stopListeningFx (v : ViewData) : List Effect := [Effect.stopListening v.cid]

/-- `destroy` (src lines 118-144).  Immediate no-op returning `this` when
already destroyed.  Otherwise: trigger `before:destroy`; update the lifecycle
flags `_isDestroyed := true`, `_isRendered := false` (recorded in the trace as
`setDestroyedFlags`); unbind the UI elements of the view and its behaviors;
remove the element from the DOM; remove the children (after the element
removal); destroy the behaviors; trigger `destroy` (on the already-updated
state); stop listening.  `_isAttached` is not touched. -/
def destroy (v : ViewData) (chain : List ParentNode) (args : List Int) :
    ViewData × List Effect :=
  if v._isDestroyed then (v, [])
  else
    let fx1 := (triggerMethod v chain "before:destroy" args).2
    let v1 := { v with _isDestroyed := true, _isRendered := false }
    let r2 := unbindUIElements v1
    (r2.1,
      fx1 ++ [Effect.setDestroyedFlags v1.cid] ++ r2.2
        ++ _removeElement r2.1 ++ _removeChildren r2.1
        ++ _destroyBehaviors r2.1 args
        ++ (triggerMethod r2.1 chain "destroy" args).2
        ++ stopListeningFx r2.1)

/-- `destroy` called `n` times in a row on the same view, accumulating the
observable effects of all calls. -/
def destroyTimes : Nat → ViewData → List ParentNode → List Int →
    ViewData × List Effect
  | 0, v, _, _ => (v, [])
  | n + 1, v, chain, args =>
    let r := destroy v chain args
    let r2 := destroyTimes n r.1 chain args
    (r2.1, r.2 ++ r2.2)

theorem destroy_sets_isDestroyed (v : ViewData) (chain : List ParentNode)
    (args : List Int) : (destroy v chain args).1._isDestroyed = true := by
  by_cases h : v._isDestroyed <;> simp [destroy, h, unbindUIElements,
    _unbindUIElements, _unbindBehaviorUIElements]

theorem destroy_of_destroyed (v : ViewData) (chain : List ParentNode)
    (args : List Int) (h : v._isDestroyed = true) :
    destroy v chain args = (v, []) := by
  simp [destroy, h]

theorem destroyTimes_of_destroyed (n : Nat) (v : ViewData)
    (chain : List ParentNode) (args : List Int) (h : v._isDestroyed = true) :
    destroyTimes n v chain args = (v, []) := by
  induction n with
  | zero => rfl
  | succ n ih => simp [destroyTimes, destroy_of_destroyed v chain args h, ih]

theorem orE_none_right {α : Type} (x : Option α) : orE x none = x := by
  cases x <;> rfl

/-- The key list of an association map. -/
def keysOf {α : Type} (m : List (String × α)) : List String := m.map Prod.fst

theorem keysOf_liftEvents (m : List (String × String)) :
    keysOf (liftEvents m) = keysOf m := by
  simp [keysOf, liftEvents]

theorem nodup_keys_liftEvents {m : List (String × String)}
    (h : (keysOf m).Nodup) : ((liftEvents m).map Prod.fst).Nodup := by
  have h2 := keysOf_liftEvents m
  rw [keysOf] at h2
  rw [h2]
  exact h

theorem triggerMethod_trace_ne_nil (v : ViewData) (chain : List ParentNode)
    (e : String) (args : List Int) : (triggerMethod v chain e args).2 ≠ [] := by
  cases h : lookupA v.onMethods e <;>
    simp [triggerMethod, triggerMethodBase, h]

/-! ### Sample instances used by the witnesses and counterexamples -/

/-- A view that has already been destroyed (`_isAttached` deliberately still
true: nothing in `destroy` clears it). -/
def vDead : ViewData := { cid := "dead1", _isDestroyed := true, _isAttached := true }

/-- A live, rendered, DOM-attached view with one behavior and an on-method. -/
def vAttached : ViewData :=
  { cid := "att1", _isRendered := true, _isAttached := true,
    behaviors := [{ bid := "b1" }], onMethods := [("before:destroy", 5)] }

/-- A live view whose UI table `{foo: ".foo"}` has been bound (cached). -/
def vLive : ViewData :=
  { cid := "live1", ui := [("foo", ".foo")],
    uiCache := [("foo", resolveEl ".foo")] }

/-- A view with conflicting keys across all four event sources (the key
`"click .x"` appears in the behavior's events and triggers and in the view's
events and triggers). -/
def vMerge : ViewData :=
  { cid := "m1",
    events := some [("click .a", "onA"), ("click .x", "viewEvt")],
    triggers := some [("click .x", "tx"), ("click .c", "tc")],
    behaviors := [
      { bid := "bm", events := [("click .b", "onB"), ("click .x", "behEvt")],
        triggers := [("click .x", "btx")] }] }

/-- A parent layout view with a custom child-view event pfx and cached
`childViewEvents` / `childViewTriggers` entries for `"save"`. -/
def pView : ViewData :=
  { cid := "p1", childViewEventPrefix := "cv",
    _childViewEvents := some [("save", "onChildSave")],
    _childViewTriggers := some [("save", "proxy:save")] }

/-- A view relying on the default `childViewEventPrefix`. -/
def vDefault : ViewData := { cid := "d0" }

/-- A parent chain: one intermediate container, then a first-class view. -/
def chainP : List ParentNode := [ParentNode.container, ParentNode.view pView]

/-- A parent chain that ends without ever reaching a first-class view. -/
def chainNoView : List ParentNode := [ParentNode.container, ParentNode.container]

/-! ### Claim theorems -/

/-- Claim C1: destroying an already-destroyed view is an immediate no-op that
returns the same view with no observable effect (no events, no flag changes,
no teardown step), and therefore calling `destroy` N ≥ 1 times has exactly the
observable effects (final state and effect trace) of calling it once. -/
theorem destroy_idempotent (v : ViewData) (chain : List ParentNode)
    (args : List Int) (n : Nat) (hn : 1 ≤ n) :
    (v._isDestroyed = true → destroy v chain args = (v, [])) ∧
    destroyTimes n v chain args = destroyTimes 1 v chain args := by
  refine ⟨fun h => destroy_of_destroyed v chain args h, ?_⟩
  cases n with
  | zero => omega
  | succ m =>
    have hd := destroy_sets_isDestroyed v chain args
    simp [destroyTimes, destroyTimes_of_destroyed m _ chain args hd,
      destroyTimes_of_destroyed 0 _ chain args hd]

/-- Witness for C1: a concrete destroyed view, and N = 3 versus N = 1. -/
theorem destroy_idempotent_w :
    destroy vDead [] [] = (vDead, []) ∧
    destroyTimes 3 vDead [] [] = destroyTimes 1 vDead [] [] :=
  ⟨(destroy_idempotent vDead [] [] 3 (by decide)).1 (by decide),
   (destroy_idempotent vDead [] [] 3 (by decide)).2⟩

/-- Claim C2: on a live view, `destroy` performs exactly this sequence in this
order: the `before:destroy` dispatch; the lifecycle-flag update
(`isDestroyed := true`, `isRendered := false`); UI-cache unbinding of the view
and then of its behaviors; removal of the root element from the DOM; child
removal (after the DOM removal); destruction of every attached behavior;
the `destroy` dispatch (already in the updated state); `stopListening`. -/
theorem destroy_sequence (v : ViewData) (chain : List ParentNode)
    (args : List Int) (h : v._isDestroyed = false) :
    destroy v chain args =
      ({ v with _isDestroyed := true, _isRendered := false, uiCache := [] },
        (triggerMethod v chain "before:destroy" args).2
          ++ [Effect.setDestroyedFlags v.cid]
          ++ ([Effect.unbindUI v.cid] ++ [Effect.unbindBehaviorUI v.cid])
          ++ [Effect.removeElement v.cid]
          ++ [Effect.removeChildren v.cid]
          ++ v.behaviors.map (fun b => Effect.destroyBehavior v.cid b.bid args)
          ++ (triggerMethod
                { v with _isDestroyed := true, _isRendered := false, uiCache := [] }
                chain "destroy" args).2
          ++ [Effect.stopListening v.cid]) := by
  simp [destroy, h, unbindUIElements, _unbindUIElements, _unbindBehaviorUIElements,
    _removeElement, _removeChildren, _destroyBehaviors, stopListeningFx]

/-- Witness for C2 at a concrete live view with one behavior. -/
theorem destroy_sequence_w :
    vAttached._isDestroyed = false ∧
    destroy vAttached [] [1] =
      ({ vAttached with _isDestroyed := true, _isRendered := false, uiCache := [] },
        (triggerMethod vAttached [] "before:destroy" [1]).2
          ++ [Effect.setDestroyedFlags vAttached.cid]
          ++ ([Effect.unbindUI vAttached.cid] ++ [Effect.unbindBehaviorUI vAttached.cid])
          ++ [Effect.removeElement vAttached.cid]
          ++ [Effect.removeChildren vAttached.cid]
          ++ vAttached.behaviors.map
              (fun b => Effect.destroyBehavior vAttached.cid b.bid [1])
          ++ (triggerMethod
                { vAttached with _isDestroyed := true, _isRendered := false, uiCache := [] }
                [] "destroy" [1]).2
          ++ [Effect.stopListening vAttached.cid]) :=
  ⟨by decide, destroy_sequence vAttached [] [1] (by decide)⟩

/-- Counterexample to claim C3: a live, attached view still reports
`isAttached = true` after `destroy` completes — nothing in this `destroy`
clears `_isAttached`. -/
theorem destroy_attached_cex :
    vAttached._isDestroyed = false ∧ vAttached._isAttached = true ∧
    isAttached (destroy vAttached [] []).1 = true := by decide

/-- Claim C3 (amended): after `destroy` completes on a live view, `isRendered`
is false and `isDestroyed` is true, but `isAttached` is left unchanged — in
particular a view attached to the live DOM when `destroy` was called still
reports `isAttached = true` afterwards. -/
theorem destroy_flags_amended (v : ViewData) (chain : List ParentNode)
    (args : List Int) (h : v._isDestroyed = false) :
    isRendered (destroy v chain args).1 = false ∧
    isDestroyed (destroy v chain args).1 = true ∧
    isAttached (destroy v chain args).1 = isAttached v := by
  simp [destroy, h, unbindUIElements, _unbindUIElements, _unbindBehaviorUIElements,
    isRendered, isDestroyed, isAttached]

/-- Witness for the amended C3 at a concrete live attached view. -/
theorem destroy_flags_amended_w :
    vAttached._isDestroyed = false ∧
    isRendered (destroy vAttached [] []).1 = false ∧
    isDestroyed (destroy vAttached [] []).1 = true ∧
    isAttached (destroy vAttached [] []).1 = isAttached vAttached :=
  ⟨by decide, (destroy_flags_amended vAttached [] [] (by decide)).1,
    (destroy_flags_amended vAttached [] [] (by decide)).2.1,
    (destroy_flags_amended vAttached [] [] (by decide)).2.2⟩

/-- Claim C4: `delegateEvents` merges, into an empty map, first the behaviors'
events, then the view's own normalized events, then the behaviors' expanded
triggers, then the view's own expanded triggers (`_.extend({}, ...)` in that
argument order), hands exactly this merged map to
`Backbone.View.prototype.delegateEvents` (the `delegated` field), and on any
conflicting key each later source overrides each earlier one (the hypotheses
say each individual source has unique keys, as JS object literals do). -/
theorem delegateEvents_merge (v : ViewData) (arg : Option (List (String × String)))
    (h1 : (keysOf (_getBehaviorEvents v)).Nodup)
    (h2 : (keysOf ((getEvents v arg).getD [])).Nodup)
    (h3 : (keysOf (_getBehaviorTriggers v)).Nodup)
    (h4 : (keysOf ((getTriggers v).getD [])).Nodup) :
    ∃ w, delegateEvents v arg = Except.ok w ∧
      w.delegated = some
        (extendO
          (extendA
            (extendO (extendA [] (_getBehaviorEvents v))
              (Option.map liftEvents (getEvents v arg)))
            (_getBehaviorTriggers v))
          (getTriggers v)) ∧
      ∀ k, lookupA (extendO
          (extendA
            (extendO (extendA [] (_getBehaviorEvents v))
              (Option.map liftEvents (getEvents v arg)))
            (_getBehaviorTriggers v))
          (getTriggers v)) k =
        orE (lookupO (getTriggers v) k)
          (orE (lookupA (_getBehaviorTriggers v) k)
            (orE (lookupO (Option.map liftEvents (getEvents v arg)) k)
              (lookupA (_getBehaviorEvents v) k))) := by
  refine ⟨_, rfl, ?_, ?_⟩
  · cases arg with
    | none =>
      simp [delegateEvents, _buildEventProxies, _getBehaviorEvents,
        _getBehaviorTriggers, getTriggers, getEvents]
    | some es =>
      simp [delegateEvents, _buildEventProxies, _getBehaviorEvents,
        _getBehaviorTriggers, getTriggers, getEvents]
  · intro k
    rw [lookupA_extendO _ _ k (fun s hs => by rw [hs] at h4; exact h4)]
    rw [lookupA_extendA _ _ k h3]
    rw [lookupA_extendO _ _ k (fun s hs => by
      rcases Option.map_eq_some'.mp hs with ⟨es, he, rfl⟩
      rw [he] at h2
      exact nodup_keys_liftEvents h2)]
    rw [lookupA_extendA _ _ k h1]
    rw [show lookupA ([] : List (String × Handler)) k = none from rfl,
      orE_none_right]

/-- Witness for C4 at a concrete view whose key `"click .x"` occurs in all
four sources: the view's expanded trigger wins. -/
theorem delegateEvents_merge_w :
    (keysOf (_getBehaviorEvents vMerge)).Nodup ∧
    lookupA (extendO
        (extendA
          (extendO (extendA [] (_getBehaviorEvents vMerge))
            (Option.map liftEvents (getEvents vMerge none)))
          (_getBehaviorTriggers vMerge))
        (getTriggers vMerge)) "click .x" =
      orE (lookupO (getTriggers vMerge) "click .x")
        (orE (lookupA (_getBehaviorTriggers vMerge) "click .x")
          (orE (lookupO (Option.map liftEvents (getEvents vMerge none)) "click .x")
            (lookupA (_getBehaviorEvents vMerge) "click .x"))) ∧
    lookupO (getTriggers vMerge) "click .x" = some (Handler.trig "tx") := by
  refine ⟨by decide, ?_, by decide⟩
  obtain ⟨w, hw, hd, hk⟩ := delegateEvents_merge vMerge none
    (by decide) (by decide) (by decide) (by decide)
  exact hk "click .x"

/-- Claim C5: a single `triggerMethod` call returns the view's own on-method
result (the self dispatch is consulted at the event name and its value is the
call's return value), and the observable trace is exactly the self dispatch,
then the notification of every attached behavior, then the parent cascade, in
that strict order. -/
theorem triggerMethod_order (v : ViewData) (chain : List ParentNode)
    (e : String) (args : List Int) :
    (triggerMethod v chain e args).1 = lookupA v.onMethods e ∧
    (triggerMethod v chain e args).1 = (triggerMethodBase v e args).1 ∧
    (triggerMethod v chain e args).2 =
      (triggerMethodBase v e args).2 ++ _triggerEventOnBehaviors v e args
        ++ _triggerEventOnParentLayout chain e args := by
  refine ⟨?_, rfl, rfl⟩
  cases h : lookupA v.onMethods e <;> simp [triggerMethod, triggerMethodBase, h]

/-- Claim C6: when the parent chain resolves to an ancestor view `p`, the
ancestor receives exactly one full `triggerMethod` call whose event name is
`p`'s own `childViewEventPrefix` (default `"childview"`) prepended once with a
colon, while `p`'s cached `childViewEvents` and `childViewTriggers` maps are
consulted under the unprefixed event name (that is what `cveStep` and
`cvtStep` do). -/
theorem parentForward_single_hop (chain : List ParentNode) (e : String)
    (args : List Int) (p : ViewData) (rest : List ParentNode)
    (h : _parentView chain = some (p, rest)) :
    _triggerEventOnParentLayout chain e args =
      (triggerMethod p rest ( ViewData.childViewEventPrefix p ++ ":" ++ e) args).2
        ++ cveStep p e args ++ cvtStep p rest e args ∧
    ViewData.childViewEventPrefix vDefault = "childview" :=
  ⟨parentLayout_resolve chain e args p rest h, rfl⟩

/-- Witness for C6: concrete chain whose ancestor uses the pfx `"cv"`; the
forwarded name is exactly `"cv:save"`. -/
theorem parentForward_single_hop_w :
    _parentView chainP = some (pView, []) ∧
    (_triggerEventOnParentLayout chainP "save" [2] =
      (triggerMethod pView [] ( ViewData.childViewEventPrefix pView ++ ":" ++ "save") [2]).2
        ++ cveStep pView "save" [2] ++ cvtStep pView [] "save" [2] ∧
      ViewData.childViewEventPrefix vDefault = "childview") ∧
    ViewData.childViewEventPrefix pView ++ ":" ++ "save" = "cv:save" :=
  ⟨by decide, parentForward_single_hop chainP "save" [2] pView [] (by decide),
    by decide⟩

/-- Claim C7: `_parentView` walks the `_parent` chain and returns the first
node that passes the `instanceof View` check (every node before it is a
non-view container); when the chain has no such node it returns `none`, and
in that case the parent-cascade step contributes nothing and raises no
error. -/
theorem parentView_first_view (chain : List ParentNode) (e : String)
    (args : List Int) :
    (∀ p rest, _parentView chain = some (p, rest) →
      ∃ pre, chain = pre ++ ParentNode.view p :: rest ∧
        ∀ n, n ∈ pre → n = ParentNode.container) ∧
    ((∀ d : ViewData, ¬ ParentNode.view d ∈ chain) →
      _parentView chain = none ∧
        _triggerEventOnParentLayout chain e args = []) := by
  induction chain with
  | nil =>
    exact ⟨fun p rest h => by simp [_parentView] at h, fun _ => ⟨rfl, rfl⟩⟩
  | cons hd tl ih =>
    cases hd with
    | view q =>
      refine ⟨fun p rest h => ?_, fun hno => ?_⟩
      · rw [show _parentView (ParentNode.view q :: tl) = some (q, tl) from rfl] at h
        simp only [Option.some.injEq, Prod.mk.injEq] at h
        obtain ⟨h1, h2⟩ := h
        subst h1
        subst h2
        exact ⟨[], rfl, fun n hn => absurd hn (List.not_mem_nil n)⟩
      · exact absurd (List.mem_cons_self _ _) (hno q)
    | container =>
      refine ⟨fun p rest h => ?_, fun hno => ?_⟩
      · obtain ⟨pre, hpre, hc⟩ := ih.1 p rest h
        refine ⟨ParentNode.container :: pre, by rw [List.cons_append, ← hpre],
          fun n hn => ?_⟩
        rcases List.mem_cons.mp hn with h1 | h1
        · exact h1
        · exact hc n h1
      · exact ih.2 (fun d hd2 => hno d (List.mem_cons_of_mem _ hd2))

/-- Witness for C7: the chain with a view after one container, and the chain
of two containers with no view at all. -/
theorem parentView_first_view_w :
    (∃ pre, chainP = pre ++ ParentNode.view pView :: ([] : List ParentNode) ∧
      ∀ n, n ∈ pre → n = ParentNode.container) ∧
    (_parentView chainNoView = none ∧
      _triggerEventOnParentLayout chainNoView "go" [] = []) :=
  ⟨(parentView_first_view chainP "go" []).1 pView [] (by decide),
   (parentView_first_view chainNoView "go" []).2 (fun d hd => by
     simp [chainNoView] at hd)⟩

/-- Claim C8: `getUI` on a destroyed view fails with a `ViewDestroyedError`
carrying the view's `cid` in its message; on a live view it returns the cached
UI element for the name without raising. -/
theorem getUI_guarded (v : ViewData) (n : String) :
    (v._isDestroyed = true →
      getUI v n = Except.error
        { name := "ViewDestroyedError",
          message := "View (cid: \"" ++ v.cid ++
            "\") has already been destroyed and cannot be used." }) ∧
    (v._isDestroyed = false → getUI v n = Except.ok (lookupA v.uiCache n)) := by
  constructor <;> intro h <;> simp [getUI, _ensureViewIsIntact, _getUI, h]

/-- Witness for C8: both branches at concrete views; the live view's UI table
`{foo: ".foo"}` yields the cached element for `".foo"`. -/
theorem getUI_guarded_w :
    vDead._isDestroyed = true ∧
    getUI vDead "foo" = Except.error
      { name := "ViewDestroyedError",
        message := "View (cid: \"" ++ vDead.cid ++
          "\") has already been destroyed and cannot be used." } ∧
    vLive._isDestroyed = false ∧
    getUI vLive "foo" = Except.ok (lookupA vLive.uiCache "foo") ∧
    lookupA vLive.uiCache "foo" = some (resolveEl ".foo") :=
  ⟨by decide, (getUI_guarded vDead "foo").1 (by decide), by decide,
    (getUI_guarded vLive "foo").2 (by decide), by decide⟩

/-- Counterexample to claim C9: on a concrete destroyed view the mutating
operations `delegateEvents`, `delegateEntityEvents`, `undelegateEntityEvents`
and `bindUIElements` all complete normally instead of raising, and
`triggerMethod` still performs its full dispatch work (nonempty trace) — so
not every mutating operation fails fast on a destroyed view. -/
theorem destroyed_ops_cex :
    vDead._isDestroyed = true ∧
    (∃ w, delegateEvents vDead none = Except.ok w) ∧
    (∃ w, delegateEntityEvents vDead = Except.ok w) ∧
    (∃ w, undelegateEntityEvents vDead = Except.ok w) ∧
    (∃ w, bindUIElements vDead = Except.ok w) ∧
    (triggerMethod vDead [] "ping" []).2 ≠ [] :=
  ⟨rfl, ⟨_, rfl⟩, ⟨_, rfl⟩, ⟨_, rfl⟩, ⟨_, rfl⟩, by decide⟩

/-- Claim C9 (amended): once `isDestroyed` is true it stays true — no modelled
operation resets it and a further `destroy` is an immediate no-op — and the
guarded accessor `getUI` fails fast with a `ViewDestroyedError`; but the
mutating operations `delegateEvents`, `delegateEntityEvents`,
`undelegateEntityEvents`, `bindUIElements` and `triggerMethod` contain no
intactness guard: invoked on a destroyed view they complete normally (each
preserving the destroyed flag) rather than rejecting. -/
theorem destroyed_ops_amended (v : ViewData) (chain : List ParentNode)
    (e : String) (args : List Int) (arg : Option (List (String × String)))
    (n : String) (h : v._isDestroyed = true) :
    (∃ err, getUI v n = Except.error err ∧ err.name = "ViewDestroyedError") ∧
    (∃ w, delegateEvents v arg = Except.ok w ∧ w._isDestroyed = true) ∧
    (∃ w, delegateEntityEvents v = Except.ok w ∧ w.1._isDestroyed = true) ∧
    (∃ w, undelegateEntityEvents v = Except.ok w ∧ w.1._isDestroyed = true) ∧
    (∃ w, bindUIElements v = Except.ok w ∧ w.1._isDestroyed = true) ∧
    destroy v chain args = (v, []) ∧
    (triggerMethod v chain e args).2 ≠ [] := by
  refine ⟨⟨MarionetteError.mk "ViewDestroyedError"
      ("View (cid: \"" ++ v.cid ++
        "\") has already been destroyed and cannot be used."),
    by simp [getUI, _ensureViewIsIntact, h], rfl⟩, ?_, ⟨_, rfl, h⟩,
    ⟨_, rfl, h⟩, ⟨_, rfl, h⟩, destroy_of_destroyed v chain args h,
    triggerMethod_trace_ne_nil v chain e args⟩
  cases arg with
  | none => exact ⟨_, rfl, h⟩
  | some es => exact ⟨_, rfl, h⟩

/-- Witness for the amended C9 at a concrete destroyed view. -/
theorem destroyed_ops_amended_w :
    vDead._isDestroyed = true ∧
    (∃ err, getUI vDead "foo" = Except.error err ∧
      err.name = "ViewDestroyedError") ∧
    (∃ w, delegateEvents vDead none = Except.ok w ∧ w._isDestroyed = true) ∧
    (∃ w, delegateEntityEvents vDead = Except.ok w ∧ w.1._isDestroyed = true) ∧
    (∃ w, undelegateEntityEvents vDead = Except.ok w ∧ w.1._isDestroyed = true) ∧
    (∃ w, bindUIElements vDead = Except.ok w ∧ w.1._isDestroyed = true) ∧
    destroy vDead [] [] = (vDead, []) ∧
    (triggerMethod vDead [] "ping" []).2 ≠ [] :=
  ⟨by decide, (destroyed_ops_amended vDead [] "ping" [] none "foo" rfl).1,
    (destroyed_ops_amended vDead [] "ping" [] none "foo" rfl).2.1,
    (destroyed_ops_amended vDead [] "ping" [] none "foo" rfl).2.2.1,
    (destroyed_ops_amended vDead [] "ping" [] none "foo" rfl).2.2.2.1,
    (destroyed_ops_amended vDead [] "ping" [] none "foo" rfl).2.2.2.2.1,
    (destroyed_ops_amended vDead [] "ping" [] none "foo" rfl).2.2.2.2.2.1,
    (destroyed_ops_amended vDead [] "ping" [] none "foo" rfl).2.2.2.2.2.2⟩

/-- Claim C10 (implicit): within one parent-forwarding step, when the ancestor
has both a `childViewEvents` function entry and a `childViewTriggers` string
entry for the event, the three mechanisms run in this fixed order: the
ancestor's `triggerMethod` with the prefixed event name, then the
`childViewEvents` handler applied to the ancestor with the original args, then
the `childViewTriggers` string re-triggered as a new method-event on the
ancestor. -/
theorem parentForward_step_order (chain : List ParentNode) (e : String)
    (args : List Int) (p : ViewData) (rest : List ParentNode)
    (cve cvt : List (String × String)) (f t : String)
    (h : _parentView chain = some (p, rest))
    (h1 : p._childViewEvents = some cve) (h2 : lookupA cve e = some f)
    (h3 : p._childViewTriggers = some cvt) (h4 : lookupA cvt e = some t) :
    _triggerEventOnParentLayout chain e args =
      (triggerMethod p rest ( ViewData.childViewEventPrefix p ++ ":" ++ e) args).2
        ++ [Effect.childViewEventHandler p.cid e args]
        ++ (triggerMethod p rest t args).2 := by
  rw [parentLayout_resolve chain e args p rest h]
  simp [cveStep, cvtStep, h1, h2, h3, h4]

/-- Witness for C10 at the concrete chain whose ancestor declares both maps
for `"save"`. -/
theorem parentForward_step_order_w :
    _parentView chainP = some (pView, []) ∧
    pView._childViewEvents = some [("save", "onChildSave")] ∧
    pView._childViewTriggers = some [("save", "proxy:save")] ∧
    _triggerEventOnParentLayout chainP "save" [3] =
      (triggerMethod pView [] ( ViewData.childViewEventPrefix pView ++ ":" ++ "save") [3]).2
        ++ [Effect.childViewEventHandler pView.cid "save" [3]]
        ++ (triggerMethod pView [] "proxy:save" [3]).2 :=
  ⟨by decide, by decide, by decide,
    parentForward_step_order chainP "save" [3] pView []
      [("save", "onChildSave")] [("save", "proxy:save")] "onChildSave"
      "proxy:save" (by decide) (by decide) (by decide) (by decide) (by decide)⟩

end Marionette
